import Mathlib

/-!
Shallow embedding of the community voting service (`app.py`).

Time is modelled as an integer number of seconds (`Int`); `timedelta(days=d)`
becomes `d * secondsPerDay`.  The SQLite tables become lists of records inside
a `Store`; `AUTOINCREMENT` ids become the `nextPid` / `nextVid` counters.
Each route handler becomes a function `Int → Store → ... → Except ApiError α × Store`
returning both the HTTP-level outcome and the database state after the call
(mutations committed before an error is raised are kept, as in the code).
`HTTPException(status_code, detail)` becomes an `ApiError` record.
The pydantic field constraints (`constr(min_length=1)`, the vote regex) are
modelled by the `valid...` checks run before the handler body; the vote regex
`^(yes|no|abstain)$` together with the SQL CHECK constraint is modelled by the
`Choice` inductive.
-/

namespace Voting

inductive ProposalStatus where
  | active
  | closed
  | expired
deriving DecidableEq

inductive Choice where
  | yes
  | no
  | abstain
deriving DecidableEq

/-- A row of the `proposals` table. -/
structure Proposal where
  id : Nat
  title : String
  description : String
  created_at : Int
  deadline : Int
  status : ProposalStatus
deriving DecidableEq

/-- A row of the `votes` table. -/
structure Vote where
  id : Nat
  proposal_id : Nat
  voter_name : String
  vote : Choice
  voted_at : Int
deriving DecidableEq

/-- The SQLite database: both tables plus the autoincrement counters. -/
structure Store where
  proposals : List Proposal
  votes : List Vote
  nextPid : Nat
  nextVid : Nat
deriving DecidableEq

/-- An `HTTPException(status_code=code, detail=detail)`. -/
structure ApiError where
  code : Nat
  detail : String
deriving DecidableEq

def proposalNotFound : ApiError := ⟨404, "Proposal not found"⟩
def voteNotFound : ApiError := ⟨404, "Vote not found"⟩
def notActiveVote : ApiError := ⟨400, "Proposal is not active; voting is not allowed."⟩
def alreadyVoted : ApiError := ⟨400, "Voter has already voted. Revoke first to change vote."⟩
def cannotRevoke : ApiError := ⟨400, "Cannot revoke vote: proposal not active."⟩
def adminRequired : ApiError := ⟨403, "Admin token required"⟩
/-- The 422 FastAPI produces when pydantic validation of the payload fails. -/
def validationError : ApiError := ⟨422, "Unprocessable Entity"⟩

def secondsPerDay : Int := 86400

/-- `SELECT * FROM proposals WHERE id=? ... fetchone()`. -/
def findProposal (s : Store) (pid : Nat) : Option Proposal :=
  s.proposals.find? (fun p => p.id == pid)

/-- `SELECT * FROM votes WHERE id=? ... fetchone()`. -/
def findVote (s : Store) (vid : Nat) : Option Vote :=
  s.votes.find? (fun v => v.id == vid)

/-- `UPDATE proposals SET status=? WHERE id=?`. -/
def setProposalStatus (s : Store) (pid : Nat) (st : ProposalStatus) : Store :=
  { s with proposals :=
      s.proposals.map (fun p => if p.id == pid then { p with status := st } else p) }

/-- `get_proposal_or_404` (app.py): fetch the row, 404 if missing; if the
stored status is active and `now > deadline`, persist status = expired and
re-fetch before returning. -/
def get_proposal_or_404 (now : Int) (s : Store) (pid : Nat) :
    Except ApiError Proposal × Store :=
  match findProposal s pid with
  | none => (.error proposalNotFound, s)
  | some row =>
    if row.status = .active ∧ now > row.deadline then
      let s2 := setProposalStatus s pid .expired
      match findProposal s2 pid with
      | some row2 => (.ok row2, s2)
      | none => (.error proposalNotFound, s2)
    else (.ok row, s)

/-- Counter record for the `counts` dict of `tally_votes`. -/
structure Counts where
  yes : Nat
  no : Nat
  abstain : Nat
deriving DecidableEq

def bumpCounts (c : Counts) : Choice → Counts
  | .yes => { c with yes := c.yes + 1 }
  | .no => { c with no := c.no + 1 }
  | .abstain => { c with abstain := c.abstain + 1 }

/-- `tally_votes` (app.py): `SELECT vote, COUNT(*) FROM votes WHERE proposal_id=?
GROUP BY vote`, read into a dict defaulted to 0 for each choice.  The group-by
count is modelled as one counting pass over the proposal's vote rows. -/
def tally_votes (s : Store) (pid : Nat) : Nat × Nat × Nat :=
  let cs := (s.votes.filter (fun v => v.proposal_id == pid)).foldl
      (fun c v => bumpCounts c v.vote) ⟨0, 0, 0⟩
  (cs.yes, cs.no, cs.abstain)

/-- Request body of `POST /proposals/` before pydantic validation. -/
structure ProposalCreate where
  title : String
  description : String
  days_open : Option Int
deriving DecidableEq

/-- `days_open: Optional[int] = 2`. -/
def daysOpenOrDefault (p : ProposalCreate) : Int := p.days_open.getD 2

/-- The pydantic constraints on `ProposalCreate`: `constr(min_length=1)` on
title and description.  No constraint exists on `days_open`. -/
def validProposalCreate (p : ProposalCreate) : Bool :=
  1 ≤ p.title.length && 1 ≤ p.description.length

/-- Request body of the vote route before pydantic validation; the choice
regex is absorbed into `Choice`. -/
structure VoteCreate where
  voter_name : String
  vote : Choice
deriving DecidableEq

/-- `constr(min_length=1)` on `voter_name`. -/
def validVoteCreate (p : VoteCreate) : Bool :=
  1 ≤ p.voter_name.length

/-- The `ProposalOut` response model. -/
structure ProposalOut where
  id : Nat
  title : String
  description : String
  created_at : Int
  deadline : Int
  status : ProposalStatus
  yes_count : Nat
  no_count : Nat
  abstain_count : Nat
deriving DecidableEq

/-- The `VoteOut` response model. -/
structure VoteOut where
  id : Nat
  proposal_id : Nat
  voter_name : String
  vote : Choice
  voted_at : Int
deriving DecidableEq

/-- Build a `ProposalOut` from a proposal row and the tally of its votes. -/
def mkProposalOut (s : Store) (row : Proposal) : ProposalOut :=
  let t := tally_votes s row.id
  ⟨row.id, row.title, row.description, row.created_at, row.deadline, row.status,
   t.1, t.2.1, t.2.2⟩

/-- `create_proposal` (app.py): insert an active proposal with
`created_at = now`, `deadline = now + days_open days`, then read it back via
`get_proposal_or_404` and tally. -/
def create_proposal (now : Int) (s : Store) (payload : ProposalCreate) :
    Except ApiError ProposalOut × Store :=
  if validProposalCreate payload then
    let pid := s.nextPid
    let s1 : Store := { s with
      proposals := s.proposals ++
        [⟨pid, payload.title, payload.description, now,
          now + daysOpenOrDefault payload * secondsPerDay, .active⟩],
      nextPid := pid + 1 }
    match get_proposal_or_404 now s1 pid with
    | (.ok row, s2) => (.ok (mkProposalOut s2 row), s2)
    | (.error e, s2) => (.error e, s2)
  else (.error validationError, s)

/-- The loop body of `get_proposals` (app.py): resolve each id in turn,
threading the connection state; an exception aborts the request. -/
def get_proposals_loop (now : Int) (ids : List Nat) (acc : List ProposalOut)
    (s : Store) : Except ApiError (List ProposalOut) × Store :=
  match ids with
  | [] => (.ok acc, s)
  | pid :: rest =>
    match get_proposal_or_404 now s pid with
    | (.ok row, s2) => get_proposals_loop now rest (acc ++ [mkProposalOut s2 row]) s2
    | (.error e, s2) => (.error e, s2)

/-- `get_proposals` (app.py): `SELECT id FROM proposals`, then resolve and
tally each. -/
def get_proposals (now : Int) (s : Store) :
    Except ApiError (List ProposalOut) × Store :=
  get_proposals_loop now (s.proposals.map (fun p => p.id)) [] s

/-- `get_proposal` (app.py): resolve one proposal and tally it. -/
def get_proposal (now : Int) (s : Store) (pid : Nat) :
    Except ApiError ProposalOut × Store :=
  match get_proposal_or_404 now s pid with
  | (.ok row, s2) => (.ok (mkProposalOut s2 row), s2)
  | (.error e, s2) => (.error e, s2)

/-- `submit_vote` (app.py): resolve the proposal, reject if not active,
reject a duplicate (proposal_id, voter_name) pair, else insert the vote. -/
def submit_vote (now : Int) (s : Store) (pid : Nat) (payload : VoteCreate) :
    Except ApiError VoteOut × Store :=
  if validVoteCreate payload then
    match get_proposal_or_404 now s pid with
    | (.error e, s2) => (.error e, s2)
    | (.ok row, s2) =>
      if row.status ≠ ProposalStatus.active then (.error notActiveVote, s2)
      else if (s2.votes.find? (fun v =>
          v.proposal_id == pid && v.voter_name == payload.voter_name)).isSome then
        (.error alreadyVoted, s2)
      else
        let vid := s2.nextVid
        (.ok ⟨vid, pid, payload.voter_name, payload.vote, now⟩,
         { s2 with
            votes := s2.votes ++ [⟨vid, pid, payload.voter_name, payload.vote, now⟩],
            nextVid := vid + 1 })
  else (.error validationError, s)

/-- `revoke_vote` (app.py): 404 if the vote is missing, resolve the owning
proposal, reject if not active, else `DELETE FROM votes WHERE id=?`. -/
def revoke_vote (now : Int) (s : Store) (vid : Nat) :
    Except ApiError Unit × Store :=
  match findVote s vid with
  | none => (.error voteNotFound, s)
  | some v =>
    match get_proposal_or_404 now s v.proposal_id with
    | (.error e, s2) => (.error e, s2)
    | (.ok p, s2) =>
      if p.status ≠ ProposalStatus.active then (.error cannotRevoke, s2)
      else (.ok (), { s2 with votes := s2.votes.filter (fun w => w.id != vid) })

def ADMIN_TOKEN : String := "secret-admin-token"

/-- `close_proposal` (app.py): 403 unless the header equals `ADMIN_TOKEN`,
404 if the proposal is missing, then unconditionally
`UPDATE proposals SET status='closed'`, re-read via `get_proposal_or_404`
and tally. -/
def close_proposal (now : Int) (s : Store) (pid : Nat)
    (x_admin_token : Option String) : Except ApiError ProposalOut × Store :=
  if x_admin_token ≠ some ADMIN_TOKEN then (.error adminRequired, s)
  else
    match findProposal s pid with
    | none => (.error proposalNotFound, s)
    | some _ =>
      let s1 := setProposalStatus s pid .closed
      match get_proposal_or_404 now s1 pid with
      | (.ok row, s2) => (.ok (mkProposalOut s2 row), s2)
      | (.error e, s2) => (.error e, s2)

/-- `list_votes` (app.py): unfiltered read of the votes table. -/
def list_votes (s : Store) : List VoteOut :=
  s.votes.map (fun v => ⟨v.id, v.proposal_id, v.voter_name, v.vote, v.voted_at⟩)

/-- The effective status of a proposal row at instant `now`: the status
`get_proposal_or_404` reports (the stored status, except that an active row
past its deadline resolves to expired). -/
def resolvedStatus (now : Int) (p : Proposal) : ProposalStatus :=
  if p.status = .active ∧ now > p.deadline then .expired else p.status

/-- One API request, for quantifying over all operations of the service. -/
inductive Op where
  | createP (payload : ProposalCreate)
  | listAll
  | getOne (pid : Nat)
  | castVote (pid : Nat) (payload : VoteCreate)
  | revokeV (vid : Nat)
  | closeP (pid : Nat) (tok : Option String)
  | listV
  | health
deriving DecidableEq

/-- The database state after serving one request. -/
def step (now : Int) (op : Op) (s : Store) : Store :=
  match op with
  | .createP payload => (create_proposal now s payload).2
  | .listAll => (get_proposals now s).2
  | .getOne pid => (get_proposal now s pid).2
  | .castVote pid payload => (submit_vote now s pid payload).2
  | .revokeV vid => (revoke_vote now s vid).2
  | .closeP pid tok => (close_proposal now s pid tok).2
  | .listV => s
  | .health => s

/-- At most one vote per (proposal_id, voter_name) pair in the votes table. -/
def atMostOnePerPair (s : Store) : Prop :=
  s.votes.Pairwise
    (fun v w => ¬(v.proposal_id = w.proposal_id ∧ v.voter_name = w.voter_name))

/-- Count of a proposal's stored votes for one choice (the spec's "counts of
that proposal's currently stored votes grouped by choice"). -/
def voteCount (s : Store) (pid : Nat) (c : Choice) : Nat :=
  (s.votes.filter (fun v => v.proposal_id == pid)).countP (fun v => v.vote == c)

/-- How one proposal's stored status may change across one operation:
closed stays closed, and nothing ever becomes active again. -/
def statusStep (p p' : Proposal) : Prop :=
  (p.status = .closed → p'.status = .closed) ∧
  (p'.status = .active → p.status = .active)

/-- Every proposal visible in `s` is still visible in `s'` and its status
changed only along `statusStep`. -/
def statusEvolves (s s' : Store) : Prop :=
  ∀ pid p, findProposal s pid = some p →
    ∃ p', findProposal s' pid = some p' ∧ statusStep p p'

/- Concrete stores used by witnesses and counterexamples. -/

def emptyStore : Store := ⟨[], [], 1, 1⟩

/-- A proposal already stored as expired. -/
def cexP : Proposal := ⟨1, "t", "d", 0, 10, .expired⟩

def cexStore : Store := ⟨[cexP], [], 2, 1⟩

/-- Same expired proposal, with one recorded vote. -/
def cexStoreV : Store := ⟨[cexP], [⟨1, 1, "bob", .no, 5⟩], 2, 2⟩

/-- A proposal stored active whose deadline (10) has passed at `now = 20`. -/
def staleP : Proposal := ⟨1, "t", "d", 0, 10, .active⟩

def staleStore : Store := ⟨[staleP], [], 2, 1⟩

/-- An active proposal (deadline 100) with one vote by "alice". -/
def demoP : Proposal := ⟨1, "t", "d", 0, 100, .active⟩

def demoVote : Vote := ⟨1, 1, "alice", .yes, 5⟩

def demoStore : Store := ⟨[demoP], [demoVote], 2, 2⟩

/-! ### Helper lemmas about lookup and the status update -/

theorem findProposal_id {s : Store} {pid : Nat} {p : Proposal}
    (h : findProposal s pid = some p) : p.id = pid := by
  have := List.find?_some h
  exact beq_iff_eq.1 this

theorem findVote_id {s : Store} {vid : Nat} {v : Vote}
    (h : findVote s vid = some v) : v.id = vid := by
  have := List.find?_some h
  exact beq_iff_eq.1 this

theorem find?_map_setStatus (l : List Proposal) (q pid : Nat) (st : ProposalStatus) :
    (l.map (fun p => if p.id == q then { p with status := st } else p)).find?
        (fun p => p.id == pid)
      = (l.find? (fun p => p.id == pid)).map
          (fun p => if p.id == q then { p with status := st } else p) := by
  induction l with
  | nil => rfl
  | cons a t ih =>
    have hid : (if a.id == q then { a with status := st } else a).id = a.id := by
      by_cases h : a.id == q <;> simp [h]
    by_cases hpid : a.id == pid
    · rw [List.map_cons, List.find?_cons_of_pos, List.find?_cons_of_pos]
      · simp
      · exact hpid
      · rw [hid]; exact hpid
    · rw [List.map_cons, List.find?_cons_of_neg, List.find?_cons_of_neg, ih]
      · simpa using hpid
      · rw [hid]; simpa using hpid

theorem findProposal_setStatus (s : Store) (q pid : Nat) (st : ProposalStatus) :
    findProposal (setProposalStatus s q st) pid
      = (findProposal s pid).map
          (fun p => if p.id == q then { p with status := st } else p) := by
  unfold findProposal setProposalStatus
  exact find?_map_setStatus s.proposals q pid st

theorem findProposal_setStatus_self {s : Store} {pid : Nat} {p : Proposal}
    (st : ProposalStatus) (h : findProposal s pid = some p) :
    findProposal (setProposalStatus s pid st) pid = some { p with status := st } := by
  rw [findProposal_setStatus, h]
  have := findProposal_id h
  simp [this]

theorem findProposal_setStatus_ne {s : Store} {q pid : Nat}
    (st : ProposalStatus) (h : pid ≠ q) :
    findProposal (setProposalStatus s q st) pid = findProposal s pid := by
  rw [findProposal_setStatus]
  cases hf : findProposal s pid with
  | none => rfl
  | some p =>
    have hid := findProposal_id hf
    have : (p.id == q) = false := by
      rw [hid]; exact beq_false_of_ne h
    simp [this]
    intro hq
    exact absurd (hid.symm.trans hq) h

/-- `get_proposal_or_404` on a missing id. -/
theorem get_or_404_none {now : Int} {s : Store} {pid : Nat}
    (h : findProposal s pid = none) :
    get_proposal_or_404 now s pid = (.error proposalNotFound, s) := by
  unfold get_proposal_or_404
  rw [h]

/-- Characterization of `get_proposal_or_404` on a present id: it either
persists the expiry transition or leaves the store untouched. -/
theorem get_or_404_found {now : Int} {s : Store} {pid : Nat} {row : Proposal}
    (h : findProposal s pid = some row) :
    get_proposal_or_404 now s pid =
      if row.status = .active ∧ now > row.deadline then
        (.ok { row with status := .expired }, setProposalStatus s pid .expired)
      else (.ok row, s) := by
  have h2 := findProposal_setStatus_self (s := s) ProposalStatus.expired h
  unfold get_proposal_or_404
  by_cases hc : row.status = ProposalStatus.active ∧ now > row.deadline
  · simp only [h, h2, if_pos hc]
  · simp only [h, if_neg hc]

theorem setProposalStatus_votes (s : Store) (pid : Nat) (st : ProposalStatus) :
    (setProposalStatus s pid st).votes = s.votes := rfl

/-- The store after a resolution is the input store, or the input store with
one status persisted to expired (and then the resolved row was active and
past its deadline). -/
theorem get_or_404_snd (now : Int) (s : Store) (pid : Nat) :
    (get_proposal_or_404 now s pid).2 = s ∨
      ((get_proposal_or_404 now s pid).2 = setProposalStatus s pid .expired ∧
        ∃ row, findProposal s pid = some row ∧
          row.status = .active ∧ now > row.deadline) := by
  cases hf : findProposal s pid with
  | none => rw [get_or_404_none hf]; left; rfl
  | some row =>
    rw [get_or_404_found hf]
    by_cases hc : row.status = ProposalStatus.active ∧ now > row.deadline
    · rw [if_pos hc]; right; exact ⟨rfl, row, rfl, hc⟩
    · rw [if_neg hc]; left; rfl

theorem get_or_404_snd_votes (now : Int) (s : Store) (pid : Nat) :
    (get_proposal_or_404 now s pid).2.votes = s.votes := by
  rcases get_or_404_snd now s pid with h | ⟨h, _⟩
  · rw [h]
  · rw [h]; rfl

/-- A successful resolution never reports active past the deadline. -/
theorem get_or_404_no_stale (now : Int) (s : Store) (pid : Nat) (row : Proposal)
    (h : (get_proposal_or_404 now s pid).1 = .ok row) :
    row.status = .active → ¬ now > row.deadline := by
  cases hf : findProposal s pid with
  | none =>
    rw [get_or_404_none hf] at h
    exact absurd h (by simp)
  | some r =>
    rw [get_or_404_found hf] at h
    by_cases hc : r.status = ProposalStatus.active ∧ now > r.deadline
    · rw [if_pos hc] at h
      have : row = { r with status := ProposalStatus.expired } := by
        cases h; rfl
      intro ha
      rw [this] at ha
      exact absurd ha (by simp)
    · rw [if_neg hc] at h
      have : row = r := by cases h; rfl
      subst this
      intro ha hd
      exact hc ⟨ha, hd⟩

/-- A successful resolution reports the stored row with its resolved status. -/
theorem get_or_404_fst_found (now : Int) (s : Store) (pid : Nat) (row : Proposal)
    (h : findProposal s pid = some row) :
    (get_proposal_or_404 now s pid).1 =
      .ok { row with status := resolvedStatus now row } := by
  rw [get_or_404_found h]
  unfold resolvedStatus
  by_cases hc : row.status = ProposalStatus.active ∧ now > row.deadline
  · rw [if_pos hc, if_pos hc]
  · rw [if_neg hc, if_neg hc]

/-- A resolution that raises 404 found nothing. -/
theorem get_or_404_fst_err (now : Int) (s : Store) (pid : Nat) (e : ApiError)
    (h : (get_proposal_or_404 now s pid).1 = .error e) :
    findProposal s pid = none := by
  cases hf : findProposal s pid with
  | none => rfl
  | some row =>
    rw [get_or_404_fst_found now s pid row hf] at h
    exact absurd h (by simp)

/-! ### Status evolution: what one request can do to one proposal's status -/

theorem statusStep_refl (p : Proposal) : statusStep p p :=
  ⟨fun h => h, fun h => h⟩

theorem statusEvolves_refl (s : Store) : statusEvolves s s :=
  fun _ p h => ⟨p, h, statusStep_refl p⟩

theorem statusEvolves_trans {s t u : Store}
    (h1 : statusEvolves s t) (h2 : statusEvolves t u) : statusEvolves s u := by
  intro pid p hp
  obtain ⟨q, hq, hsq⟩ := h1 pid p hp
  obtain ⟨r, hr, hqr⟩ := h2 pid q hq
  exact ⟨r, hr, fun hc => hqr.1 (hsq.1 hc), fun ha => hsq.2 (hqr.2 ha)⟩

theorem statusEvolves_of_proposals_eq {s s' : Store}
    (h : s'.proposals = s.proposals) : statusEvolves s s' := by
  intro pid p hp
  refine ⟨p, ?_, statusStep_refl p⟩
  unfold findProposal at hp ⊢
  rw [h]
  exact hp

theorem statusEvolves_congr {s t u : Store}
    (h : statusEvolves s t) (he : u.proposals = t.proposals) : statusEvolves s u :=
  statusEvolves_trans h (statusEvolves_of_proposals_eq he)

theorem statusEvolves_append (s : Store) (l : List Proposal) (np nv : Nat) :
    statusEvolves s { s with proposals := s.proposals ++ l, nextPid := np,
                             nextVid := nv } := by
  intro pid p hp
  refine ⟨p, ?_, statusStep_refl p⟩
  unfold findProposal at hp ⊢
  rw [List.find?_append, hp]
  rfl

theorem statusEvolves_setClosed (s : Store) (q : Nat) :
    statusEvolves s (setProposalStatus s q .closed) := by
  intro pid p hp
  rw [findProposal_setStatus, hp]
  by_cases hq : (p.id == q) = true
  · refine ⟨{ p with status := .closed }, ?_, fun _ => rfl, fun ha => by simp at ha⟩
    rw [Option.map_some', if_pos hq]
  · refine ⟨p, ?_, statusStep_refl p⟩
    rw [Option.map_some', if_neg hq]

theorem statusEvolves_setExpired {s : Store} {q : Nat} {row : Proposal}
    (hq : findProposal s q = some row) (hact : row.status = .active) :
    statusEvolves s (setProposalStatus s q .expired) := by
  intro pid p hp
  by_cases hpq : pid = q
  · subst hpq
    have hpr : p = row := Option.some.inj (hp.symm.trans hq)
    subst hpr
    refine ⟨{ p with status := .expired }, findProposal_setStatus_self _ hp, ?_, ?_⟩
    · intro hc; rw [hact] at hc; exact absurd hc (by decide)
    · intro ha; simp at ha
  · refine ⟨p, ?_, statusStep_refl p⟩
    rw [findProposal_setStatus_ne _ hpq]
    exact hp

theorem statusEvolves_resolve (now : Int) (s : Store) (pid : Nat) :
    statusEvolves s (get_proposal_or_404 now s pid).2 := by
  rcases get_or_404_snd now s pid with h | ⟨h, row, hf, hact, _⟩
  · rw [h]; exact statusEvolves_refl s
  · rw [h]; exact statusEvolves_setExpired hf hact

theorem statusEvolves_resolve_of_eq {now : Int} {s s2 : Store} {pid : Nat}
    {r : Except ApiError Proposal}
    (h : get_proposal_or_404 now s pid = (r, s2)) : statusEvolves s s2 := by
  have := statusEvolves_resolve now s pid
  rw [h] at this
  exact this

theorem statusEvolves_loop (now : Int) (ids : List Nat) :
    ∀ (acc : List ProposalOut) (s : Store),
      statusEvolves s (get_proposals_loop now ids acc s).2 := by
  induction ids with
  | nil => intro acc s; exact statusEvolves_refl s
  | cons pid rest ih =>
    intro acc s
    unfold get_proposals_loop
    cases hres : get_proposal_or_404 now s pid with
    | mk r s2 =>
      have h1 : statusEvolves s s2 := statusEvolves_resolve_of_eq hres
      cases r with
      | ok row =>
        simp only [hres]
        exact statusEvolves_trans h1 (ih (acc ++ [mkProposalOut s2 row]) s2)
      | error e =>
        simp only [hres]
        exact h1

theorem statusEvolves_create (now : Int) (s : Store) (payload : ProposalCreate) :
    statusEvolves s (create_proposal now s payload).2 := by
  unfold create_proposal
  by_cases hv : validProposalCreate payload = true
  · simp only [if_pos hv]
    cases hres : get_proposal_or_404 now
        { s with
          proposals := s.proposals ++
            [⟨s.nextPid, payload.title, payload.description, now,
              now + daysOpenOrDefault payload * secondsPerDay, .active⟩],
          nextPid := s.nextPid + 1 } s.nextPid with
    | mk r s2 =>
      have h0 : statusEvolves s
          { s with
            proposals := s.proposals ++
              [⟨s.nextPid, payload.title, payload.description, now,
                now + daysOpenOrDefault payload * secondsPerDay, .active⟩],
            nextPid := s.nextPid + 1 } := by
        have := statusEvolves_append s
          [⟨s.nextPid, payload.title, payload.description, now,
            now + daysOpenOrDefault payload * secondsPerDay, .active⟩]
          (s.nextPid + 1) s.nextVid
        exact this
      have h1 := statusEvolves_resolve_of_eq hres
      cases r with
      | ok row => simp only [hres]; exact statusEvolves_trans h0 h1
      | error e => simp only [hres]; exact statusEvolves_trans h0 h1
  · simp only [if_neg hv]
    exact statusEvolves_refl s

theorem statusEvolves_getOne (now : Int) (s : Store) (pid : Nat) :
    statusEvolves s (get_proposal now s pid).2 := by
  unfold get_proposal
  cases hres : get_proposal_or_404 now s pid with
  | mk r s2 =>
    have h1 := statusEvolves_resolve_of_eq hres
    cases r with
    | ok row => simp only [hres]; exact h1
    | error e => simp only [hres]; exact h1

theorem statusEvolves_submit (now : Int) (s : Store) (pid : Nat)
    (payload : VoteCreate) : statusEvolves s (submit_vote now s pid payload).2 := by
  unfold submit_vote
  by_cases hv : validVoteCreate payload = true
  · simp only [if_pos hv]
    cases hres : get_proposal_or_404 now s pid with
    | mk r s2 =>
      have h1 := statusEvolves_resolve_of_eq hres
      cases r with
      | error e => simp only [hres]; exact h1
      | ok row =>
        simp only [hres]
        refine statusEvolves_congr h1 ?_
        split
        · rfl
        · split <;> rfl
  · simp only [if_neg hv]
    exact statusEvolves_refl s

theorem statusEvolves_revoke (now : Int) (s : Store) (vid : Nat) :
    statusEvolves s (revoke_vote now s vid).2 := by
  unfold revoke_vote
  cases hfv : findVote s vid with
  | none => exact statusEvolves_refl s
  | some v =>
    cases hres : get_proposal_or_404 now s v.proposal_id with
    | mk r s2 =>
      have h1 := statusEvolves_resolve_of_eq hres
      cases r with
      | error e => simp only [hres]; exact h1
      | ok p =>
        simp only [hres]
        refine statusEvolves_congr h1 ?_
        split <;> rfl

theorem statusEvolves_close (now : Int) (s : Store) (pid : Nat)
    (tok : Option String) : statusEvolves s (close_proposal now s pid tok).2 := by
  unfold close_proposal
  by_cases ht : tok ≠ some ADMIN_TOKEN
  · simp only [if_pos ht]
    exact statusEvolves_refl s
  · simp only [if_neg ht]
    cases hf : findProposal s pid with
    | none => exact statusEvolves_refl s
    | some row =>
      have h0 : statusEvolves s (setProposalStatus s pid .closed) :=
        statusEvolves_setClosed s pid
      cases hres : get_proposal_or_404 now (setProposalStatus s pid .closed) pid with
      | mk r s2 =>
        have h1 := statusEvolves_resolve_of_eq hres
        cases r with
        | ok row2 => simp only [hres]; exact statusEvolves_trans h0 h1
        | error e => simp only [hres]; exact statusEvolves_trans h0 h1

/-- Every request of the API moves every proposal's status only along
`statusStep`. -/
theorem statusEvolves_step (now : Int) (op : Op) (s : Store) :
    statusEvolves s (step now op s) := by
  cases op with
  | createP payload => exact statusEvolves_create now s payload
  | listAll => exact statusEvolves_loop now _ [] s
  | getOne pid => exact statusEvolves_getOne now s pid
  | castVote pid payload => exact statusEvolves_submit now s pid payload
  | revokeV vid => exact statusEvolves_revoke now s vid
  | closeP pid tok => exact statusEvolves_close now s pid tok
  | listV => exact statusEvolves_refl s
  | health => exact statusEvolves_refl s

theorem mkProposalOut_status (s : Store) (row : Proposal) :
    (mkProposalOut s row).status = row.status := rfl

theorem mkProposalOut_deadline (s : Store) (row : Proposal) :
    (mkProposalOut s row).deadline = row.deadline := rfl

/-- Invariant of the `get_proposals` loop: every produced `ProposalOut` went
through resolution, hence is never reported active past the deadline. -/
theorem get_proposals_loop_no_stale (now : Int) (ids : List Nat) :
    ∀ (acc : List ProposalOut) (s : Store) (outs : List ProposalOut),
      (∀ o ∈ acc, o.status = .active → ¬ now > o.deadline) →
      (get_proposals_loop now ids acc s).1 = .ok outs →
      ∀ o ∈ outs, o.status = .active → ¬ now > o.deadline := by
  induction ids with
  | nil =>
    intro acc s outs hacc hok
    unfold get_proposals_loop at hok
    have : acc = outs := Except.ok.inj hok
    subst this
    exact hacc
  | cons pid rest ih =>
    intro acc s outs hacc hok
    unfold get_proposals_loop at hok
    cases hres : get_proposal_or_404 now s pid with
    | mk r s2 =>
      rw [hres] at hok
      cases r with
      | error e => simp at hok
      | ok row =>
        simp only [] at hok
        refine ih (acc ++ [mkProposalOut s2 row]) s2 outs ?_ hok
        intro o ho
        rcases List.mem_append.1 ho with hmem | hmem
        · exact hacc o hmem
        · have : o = mkProposalOut s2 row := by
            cases List.mem_singleton.1 hmem
            rfl
          subst this
          rw [mkProposalOut_status, mkProposalOut_deadline]
          exact get_or_404_no_stale now s pid row (by rw [hres])

/-! ### Claim theorems -/

/-- C10: for every proposal id (existing or not) and every credential other
than the admin token (including an absent one), `close_proposal` fails with
Forbidden (403, "Admin token required") and returns the store unchanged: the
token check precedes the lookup, so the outcome is the same error for every
store and id and no lazy expiry transition is triggered. -/
theorem C10_close_forbidden (now : Int) (s : Store) (pid : Nat)
    (tok : Option String) (h : tok ≠ some ADMIN_TOKEN) :
    close_proposal now s pid tok = (.error adminRequired, s) := by
  unfold close_proposal
  rw [if_pos h]

theorem C10_close_forbidden_witness :
    (none : Option String) ≠ some ADMIN_TOKEN ∧
    close_proposal 20 cexStore 5 none = (.error adminRequired, cexStore) :=
  ⟨by simp, C10_close_forbidden 20 cexStore 5 none (by simp)⟩

/-- C1 counterexample: `cexP` is stored expired (so its effective status
after resolution is not active), yet `close_proposal` with the valid admin
credential succeeds, returning the proposal as closed, instead of failing
with InvalidState as the claim states. -/
theorem C1_counterexample :
    resolvedStatus 20 cexP ≠ .active ∧
    findProposal cexStore 1 = some cexP ∧
    (close_proposal 20 cexStore 1 (some ADMIN_TOKEN)).1 =
      .ok ⟨1, "t", "d", 0, 10, .closed, 0, 0, 0⟩ :=
  ⟨by decide, rfl, rfl⟩

/-- C1 (amended): `close_proposal` with the valid admin credential succeeds
on every existing proposal regardless of its effective status — it performs
no resolution before the update and never fails with InvalidState; it
unconditionally persists status = closed and returns the proposal as
closed. -/
theorem C1_amended (now : Int) (s : Store) (pid : Nat) (p : Proposal)
    (h : findProposal s pid = some p) :
    close_proposal now s pid (some ADMIN_TOKEN) =
      (.ok (mkProposalOut (setProposalStatus s pid .closed)
              { p with status := .closed }),
       setProposalStatus s pid .closed) ∧
    (mkProposalOut (setProposalStatus s pid .closed)
        { p with status := .closed }).status = .closed ∧
    findProposal (setProposalStatus s pid .closed) pid =
      some { p with status := .closed } := by
  have hset := findProposal_setStatus_self (s := s) ProposalStatus.closed h
  have hres : get_proposal_or_404 now (setProposalStatus s pid .closed) pid =
      (.ok { p with status := .closed }, setProposalStatus s pid .closed) := by
    rw [get_or_404_found hset, if_neg]
    intro hc
    have := hc.1
    simp at this
  refine ⟨?_, rfl, hset⟩
  unfold close_proposal
  rw [if_neg (by simp)]
  simp only [h, hres]

theorem C1_amended_witness :
    findProposal cexStore 1 = some cexP ∧
    close_proposal 20 cexStore 1 (some ADMIN_TOKEN) =
      (.ok (mkProposalOut (setProposalStatus cexStore 1 .closed)
              { cexP with status := .closed }),
       setProposalStatus cexStore 1 .closed) :=
  ⟨rfl, (C1_amended 20 cexStore 1 cexP rfl).1⟩

/-- C2 counterexample: expired is not terminal — `cexP` is stored expired
and a single authorized close request transitions it to closed. -/
theorem C2_counterexample :
    findProposal cexStore 1 = some cexP ∧
    cexP.status = .expired ∧
    findProposal (step 20 (.closeP 1 (some ADMIN_TOKEN)) cexStore) 1 =
      some { cexP with status := .closed } :=
  ⟨rfl, rfl, rfl⟩

/-- C2 (amended): across every operation, a closed proposal stays closed and
no proposal ever returns to active; but expired is not terminal — an
authorized close transitions an expired proposal to closed (see the
counterexample). -/
theorem C2_amended (now : Int) (op : Op) (s : Store) (pid : Nat)
    (p p' : Proposal) (h : findProposal s pid = some p)
    (h' : findProposal (step now op s) pid = some p') :
    (p.status = .closed → p'.status = .closed) ∧
    (p'.status = .active → p.status = .active) := by
  obtain ⟨q, hq, hstep⟩ := statusEvolves_step now op s pid p h
  have hqp : q = p' := Option.some.inj (hq.symm.trans h')
  subst hqp
  exact hstep

theorem C2_amended_witness :
    findProposal staleStore 1 = some staleP ∧
    findProposal (step 20 (.getOne 1) staleStore) 1 =
      some { staleP with status := .expired } ∧
    (({ staleP with status := ProposalStatus.expired } : Proposal).status =
        .active → staleP.status = .active) :=
  ⟨rfl, rfl, (C2_amended 20 (.getOne 1) staleStore 1 staleP
      { staleP with status := ProposalStatus.expired } rfl rfl).2⟩

/-- C3: resolution loads the stored record; if the stored status is active
and `now > deadline` it persists status = expired and returns the updated
record, otherwise it returns the stored record unchanged (store untouched);
and after the transition every later resolution, at any instant, returns the
same expired record without writing again. -/
theorem C3_resolve (now : Int) (s : Store) (pid : Nat) (p : Proposal)
    (h : findProposal s pid = some p) :
    (p.status = .active → now > p.deadline →
      get_proposal_or_404 now s pid =
        (.ok { p with status := .expired }, setProposalStatus s pid .expired) ∧
      ∀ now2 : Int,
        get_proposal_or_404 now2 (setProposalStatus s pid .expired) pid =
          (.ok { p with status := .expired },
           setProposalStatus s pid .expired)) ∧
    (¬(p.status = .active ∧ now > p.deadline) →
      get_proposal_or_404 now s pid = (.ok p, s)) := by
  constructor
  · intro ha hd
    constructor
    · rw [get_or_404_found h, if_pos ⟨ha, hd⟩]
    · intro now2
      have hset := findProposal_setStatus_self (s := s) ProposalStatus.expired h
      rw [get_or_404_found hset, if_neg]
      intro hc
      have := hc.1
      simp at this
  · intro hc
    rw [get_or_404_found h, if_neg hc]

theorem C3_resolve_witness :
    findProposal staleStore 1 = some staleP ∧
    staleP.status = .active ∧ (20 : Int) > staleP.deadline ∧
    get_proposal_or_404 20 staleStore 1 =
      (.ok { staleP with status := .expired },
       setProposalStatus staleStore 1 .expired) ∧
    get_proposal_or_404 30 (setProposalStatus staleStore 1 .expired) 1 =
      (.ok { staleP with status := .expired },
       setProposalStatus staleStore 1 .expired) :=
  ⟨rfl, rfl, by decide,
   ((C3_resolve 20 staleStore 1 staleP rfl).1 rfl (by decide)).1,
   ((C3_resolve 20 staleStore 1 staleP rfl).1 rfl (by decide)).2 30⟩

/-- C4: no operation ever reports a proposal as active past its deadline.
Every proposal returned by get-one, list-all, create or close has gone
through the lazy expiry resolution, so its reported status is never active
when `now > deadline`; and cast and revoke succeed only when the resolved
(effective) status of the proposal they touch is active. -/
theorem C4_no_stale_active (now : Int) (s : Store) (pid vid : Nat)
    (payload : VoteCreate) (pc : ProposalCreate) :
    (∀ out, (get_proposal now s pid).1 = .ok out →
      out.status = .active → ¬ now > out.deadline) ∧
    (∀ outs out, (get_proposals now s).1 = .ok outs → out ∈ outs →
      out.status = .active → ¬ now > out.deadline) ∧
    (∀ out, (create_proposal now s pc).1 = .ok out →
      out.status = .active → ¬ now > out.deadline) ∧
    (∀ tok out, (close_proposal now s pid tok).1 = .ok out →
      out.status = .active → ¬ now > out.deadline) ∧
    (∀ v, (submit_vote now s pid payload).1 = .ok v →
      ∃ p, findProposal s pid = some p ∧ resolvedStatus now p = .active) ∧
    (∀ u, (revoke_vote now s vid).1 = .ok u →
      ∃ w p, findVote s vid = some w ∧ findProposal s w.proposal_id = some p ∧
        resolvedStatus now p = .active) := by
  refine ⟨?_, ?_, ?_, ?_, ?_, ?_⟩
  · -- get one
    intro out hok
    unfold get_proposal at hok
    cases hres : get_proposal_or_404 now s pid with
    | mk r s2 =>
      rw [hres] at hok
      cases r with
      | error e => simp at hok
      | ok row =>
        have : out = mkProposalOut s2 row := (Except.ok.inj hok).symm
        subst this
        rw [mkProposalOut_status, mkProposalOut_deadline]
        exact get_or_404_no_stale now s pid row (by rw [hres])
  · -- list all
    intro outs out hok hmem
    exact get_proposals_loop_no_stale now _ [] s outs (by simp) hok out hmem
  · -- create
    intro out hok
    unfold create_proposal at hok
    by_cases hv : validProposalCreate pc = true
    · rw [if_pos hv] at hok
      simp only [] at hok
      cases hres : get_proposal_or_404 now
          { s with
            proposals := s.proposals ++
              [⟨s.nextPid, pc.title, pc.description, now,
                now + daysOpenOrDefault pc * secondsPerDay, .active⟩],
            nextPid := s.nextPid + 1 } s.nextPid with
      | mk r s2 =>
        rw [hres] at hok
        cases r with
        | error e => simp at hok
        | ok row =>
          have : out = mkProposalOut s2 row := (Except.ok.inj hok).symm
          subst this
          rw [mkProposalOut_status, mkProposalOut_deadline]
          exact get_or_404_no_stale now _ s.nextPid row (by rw [hres])
    · rw [if_neg hv] at hok
      simp at hok
  · -- close
    intro tok out hok
    unfold close_proposal at hok
    by_cases ht : tok ≠ some ADMIN_TOKEN
    · rw [if_pos ht] at hok
      simp at hok
    · rw [if_neg ht] at hok
      cases hf : findProposal s pid with
      | none => rw [hf] at hok; simp at hok
      | some row =>
        rw [hf] at hok
        simp only [] at hok
        cases hres : get_proposal_or_404 now (setProposalStatus s pid .closed) pid with
        | mk r s2 =>
          rw [hres] at hok
          cases r with
          | error e => simp at hok
          | ok row2 =>
            have : out = mkProposalOut s2 row2 := (Except.ok.inj hok).symm
            subst this
            rw [mkProposalOut_status, mkProposalOut_deadline]
            exact get_or_404_no_stale now _ pid row2 (by rw [hres])
  · -- cast
    intro v hok
    unfold submit_vote at hok
    by_cases hv : validVoteCreate payload = true
    · rw [if_pos hv] at hok
      cases hres : get_proposal_or_404 now s pid with
      | mk r s2 =>
        rw [hres] at hok
        cases r with
        | error e => simp at hok
        | ok row =>
          simp only [] at hok
          by_cases hst : row.status = ProposalStatus.active
          · cases hf : findProposal s pid with
            | none =>
              rw [get_or_404_none hf] at hres
              exact absurd hres (by simp)
            | some p =>
              refine ⟨p, rfl, ?_⟩
              have h1 := get_or_404_fst_found now s pid p hf
              rw [hres] at h1
              have hrow : row = { p with status := resolvedStatus now p } :=
                Except.ok.inj h1
              rw [hrow] at hst
              exact hst
          · rw [if_pos hst] at hok
            simp at hok
    · rw [if_neg hv] at hok
      simp at hok
  · -- revoke
    intro u hok
    unfold revoke_vote at hok
    cases hfv : findVote s vid with
    | none => rw [hfv] at hok; simp at hok
    | some w =>
      rw [hfv] at hok
      simp only [] at hok
      cases hres : get_proposal_or_404 now s w.proposal_id with
      | mk r s2 =>
        rw [hres] at hok
        cases r with
        | error e => simp at hok
        | ok p0 =>
          simp only [] at hok
          by_cases hst : p0.status = ProposalStatus.active
          · cases hf : findProposal s w.proposal_id with
            | none =>
              rw [get_or_404_none hf] at hres
              exact absurd hres (by simp)
            | some p =>
              refine ⟨w, p, rfl, hf, ?_⟩
              have h1 := get_or_404_fst_found now s w.proposal_id p hf
              rw [hres] at h1
              have hrow : p0 = { p with status := resolvedStatus now p } :=
                Except.ok.inj h1
              rw [hrow] at hst
              exact hst
          · rw [if_pos hst] at hok
            simp at hok

theorem C4_no_stale_active_witness :
    (get_proposal 20 staleStore 1).1 =
      .ok ⟨1, "t", "d", 0, 10, .expired, 0, 0, 0⟩ ∧
    ((⟨1, "t", "d", 0, 10, ProposalStatus.expired, 0, 0, 0⟩ : ProposalOut).status
        = .active → ¬ (20 : Int) > 10) :=
  ⟨rfl, fun h => (C4_no_stale_active 20 staleStore 1 1 ⟨"x", .yes⟩
      ⟨"t", "d", none⟩).1 _ rfl h⟩

/-! ### What each operation does to the votes table -/

theorem create_proposal_votes (now : Int) (s : Store) (pc : ProposalCreate) :
    (create_proposal now s pc).2.votes = s.votes := by
  unfold create_proposal
  by_cases hv : validProposalCreate pc = true
  · simp only [if_pos hv]
    cases hres : get_proposal_or_404 now
        { s with
          proposals := s.proposals ++
            [⟨s.nextPid, pc.title, pc.description, now,
              now + daysOpenOrDefault pc * secondsPerDay, .active⟩],
          nextPid := s.nextPid + 1 } s.nextPid with
    | mk r s2 =>
      have h2 := get_or_404_snd_votes now
        { s with
          proposals := s.proposals ++
            [⟨s.nextPid, pc.title, pc.description, now,
              now + daysOpenOrDefault pc * secondsPerDay, .active⟩],
          nextPid := s.nextPid + 1 } s.nextPid
      rw [hres] at h2
      cases r with
      | ok row => simp only [hres]; exact h2
      | error e => simp only [hres]; exact h2
  · simp only [if_neg hv]

theorem get_proposal_votes (now : Int) (s : Store) (pid : Nat) :
    (get_proposal now s pid).2.votes = s.votes := by
  unfold get_proposal
  cases hres : get_proposal_or_404 now s pid with
  | mk r s2 =>
    have h2 := get_or_404_snd_votes now s pid
    rw [hres] at h2
    cases r with
    | ok row => simp only [hres]; exact h2
    | error e => simp only [hres]; exact h2

theorem get_proposals_loop_votes (now : Int) (ids : List Nat) :
    ∀ (acc : List ProposalOut) (s : Store),
      (get_proposals_loop now ids acc s).2.votes = s.votes := by
  induction ids with
  | nil => intro acc s; rfl
  | cons pid rest ih =>
    intro acc s
    unfold get_proposals_loop
    cases hres : get_proposal_or_404 now s pid with
    | mk r s2 =>
      have h2 := get_or_404_snd_votes now s pid
      rw [hres] at h2
      cases r with
      | ok row =>
        simp only [hres]
        rw [ih (acc ++ [mkProposalOut s2 row]) s2]
        exact h2
      | error e => simp only [hres]; exact h2

theorem close_proposal_votes (now : Int) (s : Store) (pid : Nat)
    (tok : Option String) : (close_proposal now s pid tok).2.votes = s.votes := by
  unfold close_proposal
  by_cases ht : tok ≠ some ADMIN_TOKEN
  · simp only [if_pos ht]
  · simp only [if_neg ht]
    cases hf : findProposal s pid with
    | none => rfl
    | some row =>
      cases hres : get_proposal_or_404 now (setProposalStatus s pid .closed) pid with
      | mk r s2 =>
        have h2 := get_or_404_snd_votes now (setProposalStatus s pid .closed) pid
        rw [hres] at h2
        cases r with
        | ok row2 => simp only [hres]; exact h2
        | error e => simp only [hres]; exact h2

theorem atMostOne_of_votes_eq {s s' : Store} (h : s'.votes = s.votes)
    (hm : atMostOnePerPair s) : atMostOnePerPair s' := by
  unfold atMostOnePerPair at hm ⊢
  rw [h]
  exact hm

/-- Every request preserves the at-most-one-vote-per-pair invariant. -/
theorem step_preserves_atMostOne (now : Int) (op : Op) (s : Store)
    (h : atMostOnePerPair s) : atMostOnePerPair (step now op s) := by
  cases op with
  | createP payload => exact atMostOne_of_votes_eq (create_proposal_votes now s payload) h
  | listAll => exact atMostOne_of_votes_eq (get_proposals_loop_votes now _ [] s) h
  | getOne pid => exact atMostOne_of_votes_eq (get_proposal_votes now s pid) h
  | closeP pid tok => exact atMostOne_of_votes_eq (close_proposal_votes now s pid tok) h
  | listV => exact h
  | health => exact h
  | revokeV vid =>
    show atMostOnePerPair (revoke_vote now s vid).2
    unfold revoke_vote
    cases hfv : findVote s vid with
    | none => exact h
    | some v =>
      cases hres : get_proposal_or_404 now s v.proposal_id with
      | mk r s2 =>
        have h2 := get_or_404_snd_votes now s v.proposal_id
        rw [hres] at h2
        have hs2 : atMostOnePerPair s2 := atMostOne_of_votes_eq h2 h
        cases r with
        | error e => simp only [hres]; exact hs2
        | ok p =>
          simp only [hres]
          split
          · exact hs2
          · unfold atMostOnePerPair at hs2 ⊢
            exact hs2.sublist (List.filter_sublist s2.votes)
  | castVote pid payload =>
    show atMostOnePerPair (submit_vote now s pid payload).2
    unfold submit_vote
    by_cases hv : validVoteCreate payload = true
    · simp only [if_pos hv]
      cases hres : get_proposal_or_404 now s pid with
      | mk r s2 =>
        have h2 := get_or_404_snd_votes now s pid
        rw [hres] at h2
        have hs2 : atMostOnePerPair s2 := atMostOne_of_votes_eq h2 h
        cases r with
        | error e => simp only [hres]; exact hs2
        | ok row =>
          simp only [hres]
          by_cases hst : (row.status ≠ ProposalStatus.active)
          · rw [if_pos hst]; exact hs2
          · rw [if_neg hst]
            by_cases hdup : (s2.votes.find? (fun v =>
                v.proposal_id == pid && v.voter_name == payload.voter_name)).isSome = true
            · rw [if_pos hdup]; exact hs2
            · rw [if_neg hdup]
              unfold atMostOnePerPair at hs2 ⊢
              rw [List.pairwise_append]
              refine ⟨hs2, List.pairwise_singleton _ _, ?_⟩
              intro a ha b hb
              have hb1 : b = ⟨s2.nextVid, pid, payload.voter_name, payload.vote, now⟩ :=
                List.mem_singleton.1 hb
              subst hb1
              have hnone : s2.votes.find? (fun v =>
                  v.proposal_id == pid && v.voter_name == payload.voter_name) = none := by
                cases hfind : s2.votes.find? (fun v =>
                    v.proposal_id == pid && v.voter_name == payload.voter_name) with
                | none => rfl
                | some x => rw [hfind] at hdup; simp at hdup
              have := List.find?_eq_none.1 hnone a ha
              intro hcon
              apply this
              rw [Bool.and_eq_true, beq_iff_eq, beq_iff_eq]
              exact ⟨hcon.1, hcon.2⟩
    · simp only [if_neg hv]; exact h

/-- C5: at most one vote exists per (proposal_id, voter_name) pair at any
time — the invariant is preserved by every operation — and a second cast for
a pair that already has a vote (on a proposal whose effective status is
active, so that the status check does not fire first) fails with Conflict
(400, "already voted") and changes nothing: no upsert, the pair can only be
recast after a revoke. -/
theorem C5_vote_uniqueness (now : Int) (op : Op) (s : Store) (pid : Nat)
    (payload : VoteCreate) (p : Proposal)
    (huniq : atMostOnePerPair s)
    (hv : validVoteCreate payload = true)
    (hp : findProposal s pid = some p)
    (hact : resolvedStatus now p = .active)
    (hdup : ∃ v ∈ s.votes, v.proposal_id = pid ∧
      v.voter_name = payload.voter_name) :
    atMostOnePerPair (step now op s) ∧
    submit_vote now s pid payload = (.error alreadyVoted, s) := by
  refine ⟨step_preserves_atMostOne now op s huniq, ?_⟩
  have hnc : ¬(p.status = .active ∧ now > p.deadline) := by
    intro hc
    unfold resolvedStatus at hact
    rw [if_pos hc] at hact
    exact absurd hact (by decide)
  have hres : get_proposal_or_404 now s pid = (.ok p, s) := by
    rw [get_or_404_found hp, if_neg hnc]
  have hstat : p.status = .active := by
    unfold resolvedStatus at hact
    rw [if_neg hnc] at hact
    exact hact
  have hfound : (s.votes.find? (fun v =>
      v.proposal_id == pid && v.voter_name == payload.voter_name)).isSome = true := by
    obtain ⟨v, hmem, h1, h2⟩ := hdup
    refine List.find?_isSome.2 ⟨v, hmem, ?_⟩
    rw [Bool.and_eq_true, beq_iff_eq, beq_iff_eq]
    exact ⟨h1, h2⟩
  unfold submit_vote
  rw [if_pos hv]
  simp only [hres]
  rw [if_neg (not_not_intro hstat), if_pos hfound]

theorem C5_vote_uniqueness_witness :
    validVoteCreate ⟨"alice", .no⟩ = true ∧
    findProposal demoStore 1 = some demoP ∧
    resolvedStatus 10 demoP = .active ∧
    submit_vote 10 demoStore 1 ⟨"alice", .no⟩ = (.error alreadyVoted, demoStore) ∧
    atMostOnePerPair (step 10 (.castVote 1 ⟨"alice", .no⟩) demoStore) := by
  have h := C5_vote_uniqueness 10 (.castVote 1 ⟨"alice", .no⟩) demoStore 1
    ⟨"alice", .no⟩ demoP
    (by unfold atMostOnePerPair demoStore; simp)
    (by decide) rfl (by decide)
    ⟨demoVote, List.mem_singleton.2 rfl, rfl, rfl⟩
  exact ⟨by decide, rfl, by decide, h.2, h.1⟩

/-- C6: once a proposal's effective (resolved) status is closed or expired,
`submit_vote` fails with InvalidState (400, "not active") and `revoke_vote`
of any vote of that proposal fails with InvalidState (400, "cannot revoke"),
both leaving the stored votes unchanged; and a proposal created with
`days_open = 0` rejects any cast at a strictly later instant with the same
InvalidState error. -/
theorem C6_no_writes_after_end (now : Int) (s : Store) (pid : Nat)
    (payload : VoteCreate) (p : Proposal)
    (hv : validVoteCreate payload = true)
    (hp : findProposal s pid = some p)
    (hst : resolvedStatus now p ≠ .active) :
    ((submit_vote now s pid payload).1 = .error notActiveVote ∧
      (submit_vote now s pid payload).2.votes = s.votes) ∧
    (∀ vid w, findVote s vid = some w → w.proposal_id = pid →
      (revoke_vote now s vid).1 = .error cannotRevoke ∧
      (revoke_vote now s vid).2.votes = s.votes) ∧
    (∀ t2 : Int, t2 > 0 →
      (submit_vote t2 (create_proposal 0 emptyStore ⟨"t", "d", some 0⟩).2 1
          ⟨"alice", .yes⟩).1 = .error notActiveVote) := by
  have hfst := get_or_404_fst_found now s pid p hp
  have hvotes := get_or_404_snd_votes now s pid
  have hcond : ({ p with status := resolvedStatus now p } : Proposal).status ≠
      ProposalStatus.active := hst
  refine ⟨?_, ?_, ?_⟩
  · unfold submit_vote
    rw [if_pos hv]
    cases hres : get_proposal_or_404 now s pid with
    | mk r s2 =>
      rw [hres] at hfst hvotes
      have hr : r = .ok { p with status := resolvedStatus now p } := hfst
      subst hr
      simp only []
      rw [if_pos hcond]
      exact ⟨rfl, hvotes⟩
  · intro vid w hw hwp
    unfold revoke_vote
    rw [hw]
    simp only [hwp]
    cases hres : get_proposal_or_404 now s pid with
    | mk r s2 =>
      rw [hres] at hfst hvotes
      have hr : r = .ok { p with status := resolvedStatus now p } := hfst
      subst hr
      simp only []
      rw [if_pos hcond]
      exact ⟨rfl, hvotes⟩
  · intro t2 ht
    have hP : findProposal
        (⟨[⟨1, "t", "d", 0, 0, .active⟩], [], 2, 1⟩ : Store) 1 =
        some ⟨1, "t", "d", 0, 0, .active⟩ := rfl
    have hcreate : (create_proposal 0 emptyStore ⟨"t", "d", some 0⟩).2 =
        ⟨[⟨1, "t", "d", 0, 0, .active⟩], [], 2, 1⟩ := rfl
    rw [hcreate]
    unfold submit_vote
    rw [if_pos (by decide)]
    rw [get_or_404_found hP, if_pos ⟨rfl, ht⟩]
    simp only []
    rw [if_pos (by simp)]

theorem C6_no_writes_after_end_witness :
    validVoteCreate ⟨"carol", .yes⟩ = true ∧
    findProposal cexStoreV 1 = some cexP ∧
    resolvedStatus 20 cexP ≠ .active ∧
    (submit_vote 20 cexStoreV 1 ⟨"carol", .yes⟩).1 = .error notActiveVote ∧
    (submit_vote 20 cexStoreV 1 ⟨"carol", .yes⟩).2.votes = cexStoreV.votes ∧
    (revoke_vote 20 cexStoreV 1).1 = .error cannotRevoke ∧
    (revoke_vote 20 cexStoreV 1).2.votes = cexStoreV.votes ∧
    (submit_vote 1 (create_proposal 0 emptyStore ⟨"t", "d", some 0⟩).2 1
        ⟨"alice", .yes⟩).1 = .error notActiveVote := by
  have h := C6_no_writes_after_end 20 cexStoreV 1 ⟨"carol", .yes⟩ cexP
    (by decide) rfl (by decide)
  have hrev := h.2.1 1 ⟨1, 1, "bob", .no, 5⟩ rfl rfl
  exact ⟨by decide, rfl, by decide, h.1.1, h.1.2, hrev.1, hrev.2,
    h.2.2 1 (by decide)⟩

/-- C7 counterexample: `create` with `days_open = -1` (not positive) does
NOT fail with Validation — it succeeds, and the created proposal violates
the claimed invariant deadline ≥ created-at (deadline -86400 < created-at
0); its stored status is immediately resolved to expired. -/
theorem C7_counterexample :
    (create_proposal 0 emptyStore ⟨"t", "d", some (-1)⟩).1 =
      .ok ⟨1, "t", "d", 0, -86400, .expired, 0, 0, 0⟩ ∧
    (-86400 : Int) < 0 :=
  ⟨rfl, by decide⟩

/-- C7 (amended): `create` fails with Validation exactly when title or
description is empty; `days_open` defaults to 2 but is NOT checked for
positivity — any integer is accepted; on success the new proposal has
created-at = now and deadline = now + days_open days, is returned active
when days_open ≥ 0 and already expired when days_open < 0, and satisfies
deadline ≥ created-at iff days_open ≥ 0. -/
theorem C7_amended (now : Int) (s : Store) (pc : ProposalCreate)
    (hfresh : findProposal s s.nextPid = none) :
    (validProposalCreate pc = false →
      create_proposal now s pc = (.error validationError, s)) ∧
    (pc.days_open = none → daysOpenOrDefault pc = 2) ∧
    (validProposalCreate pc = true →
      ∃ out, (create_proposal now s pc).1 = .ok out ∧
        out.created_at = now ∧
        out.deadline = now + daysOpenOrDefault pc * secondsPerDay ∧
        out.status =
          (if daysOpenOrDefault pc < 0 then ProposalStatus.expired
           else ProposalStatus.active) ∧
        (out.created_at ≤ out.deadline ↔ 0 ≤ daysOpenOrDefault pc)) := by
  refine ⟨?_, ?_, ?_⟩
  · intro hv
    unfold create_proposal
    rw [if_neg (by rw [hv]; exact Bool.false_ne_true)]
  · intro hd
    unfold daysOpenOrDefault
    rw [hd]
    rfl
  · intro hv
    have hfind : findProposal
        { s with
          proposals := s.proposals ++
            [⟨s.nextPid, pc.title, pc.description, now,
              now + daysOpenOrDefault pc * secondsPerDay, .active⟩],
          nextPid := s.nextPid + 1 } s.nextPid =
        some ⟨s.nextPid, pc.title, pc.description, now,
          now + daysOpenOrDefault pc * secondsPerDay, .active⟩ := by
      unfold findProposal at hfresh ⊢
      rw [List.find?_append, hfresh]
      simp
    unfold create_proposal
    rw [if_pos hv]
    simp only []
    rw [get_or_404_found hfind]
    by_cases hneg : daysOpenOrDefault pc < 0
    · rw [if_pos ⟨rfl, by
        show now > now + daysOpenOrDefault pc * secondsPerDay
        unfold secondsPerDay
        omega⟩]
      simp only []
      refine ⟨_, rfl, rfl, rfl, ?_, ?_⟩
      · show ProposalStatus.expired = _
        rw [if_pos hneg]
      · show now ≤ now + daysOpenOrDefault pc * secondsPerDay ↔ _
        unfold secondsPerDay
        omega
    · rw [if_neg (by
        intro hc
        have h2 : now > now + daysOpenOrDefault pc * secondsPerDay := hc.2
        unfold secondsPerDay at h2
        omega)]
      simp only []
      refine ⟨_, rfl, rfl, rfl, ?_, ?_⟩
      · show ProposalStatus.active = _
        rw [if_neg hneg]
      · show now ≤ now + daysOpenOrDefault pc * secondsPerDay ↔ _
        unfold secondsPerDay
        omega

theorem C7_amended_witness :
    findProposal emptyStore emptyStore.nextPid = none ∧
    create_proposal 5 emptyStore ⟨"", "d", none⟩ =
      (.error validationError, emptyStore) ∧
    daysOpenOrDefault ⟨"t", "d", none⟩ = 2 ∧
    (create_proposal 5 emptyStore ⟨"t", "d", some 0⟩).1 =
      .ok ⟨1, "t", "d", 5, 5, .active, 0, 0, 0⟩ := by
  refine ⟨rfl, ?_, ?_, rfl⟩
  · exact (C7_amended 5 emptyStore ⟨"", "d", none⟩ rfl).1 rfl
  · exact (C7_amended 5 emptyStore ⟨"t", "d", none⟩ rfl).2.1 rfl

/-- The counting loop of `tally_votes` counts exactly the occurrences of
each choice. -/
theorem foldl_bumpCounts (l : List Vote) (c : Counts) :
    l.foldl (fun c v => bumpCounts c v.vote) c =
      ⟨c.yes + l.countP (fun v => v.vote == .yes),
       c.no + l.countP (fun v => v.vote == .no),
       c.abstain + l.countP (fun v => v.vote == .abstain)⟩ := by
  induction l generalizing c with
  | nil => simp
  | cons v t ih =>
    rw [List.foldl_cons, ih]
    cases hv : v.vote <;>
      simp [bumpCounts, List.countP_cons, hv, Counts.mk.injEq] <;> omega

/-- C8: `tally_votes` returns exactly the counts of the proposal's currently
stored votes grouped by choice (untouched choices are 0); it is a pure
function of the stored votes; and for an id with no vote rows — a
non-existent proposal included — it returns (0, 0, 0). -/
theorem C8_tally (s : Store) (pid : Nat) :
    tally_votes s pid =
      (voteCount s pid .yes, voteCount s pid .no, voteCount s pid .abstain) ∧
    (∀ s2 : Store, s2.votes = s.votes → tally_votes s2 pid = tally_votes s pid) ∧
    ((∀ v ∈ s.votes, v.proposal_id ≠ pid) → tally_votes s pid = (0, 0, 0)) := by
  refine ⟨?_, ?_, ?_⟩
  · unfold tally_votes voteCount
    rw [foldl_bumpCounts]
    simp
  · intro s2 h2
    unfold tally_votes
    rw [h2]
  · intro hnone
    have hfil : s.votes.filter (fun v => v.proposal_id == pid) = [] := by
      rw [List.filter_eq_nil_iff]
      intro v hv
      simpa using hnone v hv
    unfold tally_votes
    rw [hfil]
    rfl

theorem C8_tally_witness :
    tally_votes demoStore 1 = (1, 0, 0) ∧
    tally_votes demoStore 1 =
      (voteCount demoStore 1 .yes, voteCount demoStore 1 .no,
       voteCount demoStore 1 .abstain) ∧
    (∀ v ∈ demoStore.votes, v.proposal_id ≠ 2) ∧
    tally_votes demoStore 2 = (0, 0, 0) :=
  ⟨rfl, (C8_tally demoStore 1).1, by decide,
   (C8_tally demoStore 2).2.2 (by decide)⟩

/-- C9: `revoke_vote` of a missing vote id fails with NotFound leaving the
store exactly unchanged; a successful revoke deletes exactly the vote rows
with that id and changes nothing else — proposals table and counters
untouched — and such a row existed. -/
theorem C9_revoke (now : Int) (s : Store) (vid : Nat) :
    (findVote s vid = none →
      revoke_vote now s vid = (.error voteNotFound, s)) ∧
    (∀ u : Unit, (revoke_vote now s vid).1 = .ok u →
      (revoke_vote now s vid).2.proposals = s.proposals ∧
      (revoke_vote now s vid).2.votes = s.votes.filter (fun w => w.id != vid) ∧
      (revoke_vote now s vid).2.nextPid = s.nextPid ∧
      (revoke_vote now s vid).2.nextVid = s.nextVid ∧
      ∃ v ∈ s.votes, v.id = vid) := by
  constructor
  · intro h
    unfold revoke_vote
    rw [h]
  · intro u hok
    unfold revoke_vote at hok ⊢
    cases hfv : findVote s vid with
    | none => rw [hfv] at hok; simp at hok
    | some v =>
      rw [hfv] at hok
      simp only [] at hok ⊢
      cases hres : get_proposal_or_404 now s v.proposal_id with
      | mk r s2 =>
        rw [hres] at hok
        cases r with
        | error e => simp at hok
        | ok p =>
          simp only [] at hok ⊢
          by_cases hst : (p.status ≠ ProposalStatus.active)
          · rw [if_pos hst] at hok
            simp at hok
          · rw [if_neg hst] at hok ⊢
            have hs2 : s2 = s := by
              rcases get_or_404_snd now s v.proposal_id with h | ⟨h, row, hf, hact, hdl⟩
              · rw [hres] at h; exact h
              · have h1 := get_or_404_fst_found now s v.proposal_id row hf
                rw [hres] at h1
                have hp : p = { row with status := resolvedStatus now row } :=
                  Except.ok.inj h1
                have : resolvedStatus now row = .expired := by
                  unfold resolvedStatus
                  rw [if_pos ⟨hact, hdl⟩]
                rw [this] at hp
                exact absurd (by rw [hp]; simp) hst
            subst hs2
            refine ⟨rfl, rfl, rfl, rfl, v, List.mem_of_find?_eq_some hfv,
              findVote_id hfv⟩

theorem C9_revoke_witness :
    (revoke_vote 10 demoStore 5).1 = .error voteNotFound ∧
    (revoke_vote 10 demoStore 1).1 = .ok () ∧
    (revoke_vote 10 demoStore 1).2.proposals = demoStore.proposals ∧
    (revoke_vote 10 demoStore 1).2.votes =
      demoStore.votes.filter (fun w => w.id != 1) := by
  refine ⟨?_, rfl, ?_, ?_⟩
  · rw [(C9_revoke 10 demoStore 5).1 rfl]
  · exact ((C9_revoke 10 demoStore 1).2 () rfl).1
  · exact ((C9_revoke 10 demoStore 1).2 () rfl).2.1

end Voting
